import Mathlib

/-!
# Verification of the CSV exporter (`src/utils/csvExporter.ts`)

Shallow embedding of the invoice CSV exporter.  Cell values are modelled by
`CellValue` (the JS `any` reaching `formatCsvCell`: `null`/`undefined`
collapsed into one constructor, booleans, strings as `List Char`, and numbers
as `Int` — the numeric fields of `InvoiceItem` are plain numbers and every
concrete value in the spec is integral, so JS `String(number)` is decimal
integer rendering here).  The spec's field names `taxIdNumber`, `taxAmount`
and `taxCreditFlag` denote the source's `panOrVatNumber`, `vatAmount` and
`vatCredit`; the embedding keeps the source's names.

The delivery fallback chain (host bridge → save-picker → legacy anchor
download) is modelled by an environment describing how each capability
behaves, and `exportToCsv` returns the ordered list of delivery attempts
(tier, filename, content) together with the terminal outcome.
-/

namespace CsvExporter

/-- A JS runtime value as consumed by `formatCsvCell(value: any)`.
`null` stands for both JS `null` and `undefined`. -/
inductive CellValue where
  | null : CellValue
  | bool (b : Bool) : CellValue
  | str (s : List Char) : CellValue
  | num (n : Int) : CellValue
deriving DecidableEq, Repr

/-- The characters matched by the regex `/[",\r\n]/` in `formatCsvCell`. -/
def isCsvSpecial (c : Char) : Bool :=
  c = '"' || c = ',' || c = '\r' || c = '\n'

/-- `/[",\r\n]/.test(stringValue)`: does the string need CSV quoting? -/
def needsQuoting (s : List Char) : Bool :=
  s.any isCsvSpecial

/-- `stringValue.replace(/"/g, '""')`: double every double quote. -/
def doubleQuotes : List Char → List Char
  | [] => []
  | c :: rest =>
    if c = '"' then '"' :: '"' :: doubleQuotes rest else c :: doubleQuotes rest

/-- The quoting step of `formatCsvCell`: wrap in double quotes (doubling the
internal ones) exactly when the string contains a comma, double quote, CR or
LF; otherwise return it unchanged. -/
def quoteCsv (s : List Char) : List Char :=
  if needsQuoting s then '"' :: (doubleQuotes s ++ ['"']) else s

/-- The `stringValue` computed by `formatCsvCell` before quoting: booleans
become `TRUE`/`FALSE`, other values go through `String(value)` (for `null`
the function has already returned, so the value of this branch is unused;
we let it be the empty string). -/
def cellString : CellValue → List Char
  | .null => []
  | .bool b => if b then "TRUE".toList else "FALSE".toList
  | .str s => s
  | .num n => (toString n).toList

/-- `formatCsvCell` from `src/utils/csvExporter.ts`: empty string for
`null`/`undefined`, otherwise the string form with CSV quoting applied. -/
def formatCsvCell (value : CellValue) : List Char :=
  match value with
  | .null => []
  | v => quoteCsv (cellString v)

/-- `InvoiceItem` from `src/types.ts`.  Every field holds a `CellValue`
because the exporter reads fields dynamically (`row[key]`) and
`formatCsvCell` accepts `any`; the TS types (`string`, `number`,
`boolean | undefined`) become hypotheses where a claim needs them. -/
structure InvoiceItem where
  id : CellValue
  date : CellValue
  invoiceNumber : CellValue
  partyName : CellValue
  panOrVatNumber : CellValue
  particulars : CellValue
  taxableAmount : CellValue
  vatAmount : CellValue
  totalAmount : CellValue
  sourceFileName : CellValue
  vatCredit : CellValue
deriving DecidableEq, Repr

/-- The keys of `orderedKeys` (`keyof Omit<InvoiceItem, 'id'>`). -/
inductive CsvKey where
  | date | invoiceNumber | partyName | panOrVatNumber | particulars
  | taxableAmount | vatAmount | totalAmount | sourceFileName | vatCredit
deriving DecidableEq, Repr

/-- The literal key strings used both as header cells and as lookup keys. -/
def keyName : CsvKey → List Char
  | .date => "date".toList
  | .invoiceNumber => "invoiceNumber".toList
  | .partyName => "partyName".toList
  | .panOrVatNumber => "panOrVatNumber".toList
  | .particulars => "particulars".toList
  | .taxableAmount => "taxableAmount".toList
  | .vatAmount => "vatAmount".toList
  | .totalAmount => "totalAmount".toList
  | .sourceFileName => "sourceFileName".toList
  | .vatCredit => "vatCredit".toList

/-- The `orderedKeys` array of `exportToCsv`, in source order. -/
def orderedKeys : List CsvKey :=
  [.date, .invoiceNumber, .partyName, .panOrVatNumber, .particulars,
   .taxableAmount, .vatAmount, .totalAmount, .sourceFileName, .vatCredit]

/-- Dynamic field access `row[key]`. -/
def getField (row : InvoiceItem) : CsvKey → CellValue
  | .date => row.date
  | .invoiceNumber => row.invoiceNumber
  | .partyName => row.partyName
  | .panOrVatNumber => row.panOrVatNumber
  | .particulars => row.particulars
  | .taxableAmount => row.taxableAmount
  | .vatAmount => row.vatAmount
  | .totalAmount => row.totalAmount
  | .sourceFileName => row.sourceFileName
  | .vatCredit => row.vatCredit

/-- The per-key selection in the row loop of `exportToCsv`:
`sourceFileName` gets `row.sourceFileName ?? ''` and `vatCredit` gets
`typeof row.vatCredit === 'boolean' ? row.vatCredit : false`; every other
key is read directly. -/
def valueToFormat (row : InvoiceItem) (key : CsvKey) : CellValue :=
  match key with
  | .sourceFileName =>
    match row.sourceFileName with
    | .null => .str []
    | v => v
  | .vatCredit =>
    match row.vatCredit with
    | .bool b => .bool b
    | _ => .bool false
  | k => getField row k

/-- JS `Array.join(',')`. -/
def joinComma : List (List Char) → List Char
  | [] => []
  | [x] => x
  | x :: xs => x ++ ',' :: joinComma xs

/-- `headerString`: the ordered keys, each through `formatCsvCell`, joined
by commas. -/
def headerString : List Char :=
  joinComma (orderedKeys.map (fun k => formatCsvCell (.str (keyName k))))

/-- One data line: the record's values in `orderedKeys` order, each through
`formatCsvCell`, joined by commas. -/
def rowLine (row : InvoiceItem) : List Char :=
  joinComma (orderedKeys.map (fun k => formatCsvCell (valueToFormat row k)))

/-- The CRLF row terminator `'\r\n'`. -/
def crlf : List Char := ['\r', '\n']

/-- The `csvContent` accumulation of `exportToCsv`: header line plus CRLF,
then for each row its line plus CRLF. -/
def csvContent (rows : List InvoiceItem) : List Char :=
  rows.foldl (fun acc row => acc ++ rowLine row ++ crlf) (headerString ++ crlf)

/-! ## An RFC-4180 reader

An independent standard CSV reader, used to state the round-trip claims.
A field is either a quoted field (`"` … `"` with `""` standing for one
quote) or a raw field containing no comma, quote, CR or LF; fields are
separated by `,`; records are terminated by CRLF (the final CRLF optional).
-/

/-- Read the body of a quoted field, after the opening quote: `""` yields
one quote, a lone `"` closes the field; fails on unterminated input. -/
def rfcQuotedBody : List Char → Option (List Char × List Char)
  | [] => none
  | [c] => if c = '"' then some ([], []) else none
  | c :: d :: rest =>
    if c = '"' then
      if d = '"' then
        (rfcQuotedBody rest).map (fun p => ('"' :: p.1, p.2))
      else some ([], d :: rest)
    else
      (rfcQuotedBody (d :: rest)).map (fun p => (c :: p.1, p.2))

/-- Does the input begin with a double quote? -/
def startsWithQuote : List Char → Bool
  | '"' :: _ => true
  | _ => false

/-- Read one field at the start of the input: a quoted field if it opens
with `"`, otherwise the longest special-character-free prefix (failing if
the field is cut short by a stray quote). -/
def rfcField (s : List Char) : Option (List Char × List Char) :=
  match s with
  | [] => some ([], [])
  | c :: rest =>
    if c = '"' then rfcQuotedBody rest
    else
      let f := (c :: rest).takeWhile (fun x => !(isCsvSpecial x))
      let r := (c :: rest).dropWhile (fun x => !(isCsvSpecial x))
      if startsWithQuote r then none else some (f, r)

/-- Read one cell standing alone (the whole input is the cell). -/
def rfcCell (s : List Char) : Option (List Char) :=
  match rfcField s with
  | some (f, []) => some f
  | _ => none

/-- Read one record: comma-separated fields up to a CRLF (consumed) or the
end of input.  `fuel` bounds the number of fields. -/
def rfcRecord : Nat → List Char → Option (List (List Char) × List Char)
  | 0, _ => none
  | fuel + 1, s =>
    match rfcField s with
    | none => none
    | some (f, r) =>
      match r with
      | [] => some ([f], [])
      | ',' :: r2 => (rfcRecord fuel r2).map (fun p => (f :: p.1, p.2))
      | '\r' :: '\n' :: r2 => some ([f], r2)
      | _ => none

/-- Read a whole document: a list of records.  `fuel` bounds the number of
records. -/
def rfcDocAux : Nat → List Char → Option (List (List (List Char)))
  | _, [] => some []
  | 0, _ => none
  | fuel + 1, s =>
    match rfcRecord (s.length + 1) s with
    | none => none
    | some (r, rest) => (rfcDocAux fuel rest).map (fun rs => r :: rs)

/-- Read a whole CSV document as a list of records of fields. -/
def rfcDoc (s : List Char) : Option (List (List (List Char))) :=
  rfcDocAux s.length s

/-! ## The delivery chain

`exportToCsv` hands the CSV text to the first working delivery tier:
the pywebview host bridge, then the File System Access API save picker,
then a legacy anchor-tag download.  The environment records which
capabilities exist and how they behave; the result records every delivery
attempt (tier, filename, content) in order and the terminal outcome. -/

/-- How `window.pywebview.api.save_file` behaves when invoked. -/
inductive BridgeBehavior where
  | resolveSuccess
  /-- The promise resolves with `{success:false}` (or a falsy result). -/
  | resolveFailure
  /-- The promise rejects (handled by the `.catch`). -/
  | reject
  /-- The invocation itself throws synchronously. -/
  | throwSync
deriving DecidableEq, Repr

/-- How `window.showSaveFilePicker` (plus write/close) behaves. -/
inductive PickerBehavior where
  | save
  /-- The user cancels the dialog (`AbortError`). -/
  | abort
  /-- Any other failure of the picker, write or close. -/
  | fail
deriving DecidableEq, Repr

/-- The browser/host environment observed by the exporter. -/
structure Env where
  bridge : Option BridgeBehavior
  picker : Option PickerBehavior
  /-- Whether `<a download>` is supported. -/
  downloadAttr : Bool
deriving DecidableEq, Repr

/-- One delivery tier. -/
inductive Tier where
  | bridge | picker | legacy
deriving DecidableEq, Repr

/-- One delivery attempt: which tier was invoked and with what arguments. -/
structure Attempt where
  tier : Tier
  filename : List Char
  content : List Char
deriving DecidableEq, Repr

/-- The terminal outcome of one `exportToCsv` call. -/
inductive ExportOutcome where
  /-- Empty input: `console.warn("No data to export.")` and return. -/
  | noData
  /-- The file was delivered by the given tier. -/
  | saved (t : Tier)
  /-- The user cancelled the save dialog; terminal success, no alert. -/
  | cancelled
  /-- Legacy tier: `download` attribute unsupported, alert shown. -/
  | unsupported
  /-- An exception escaped `exportToCsv` unhandled. -/
  | thrown
deriving DecidableEq, Repr

/-- The observable behaviour of one `exportToCsv` call. -/
structure ExportResult where
  /-- All delivery attempts, in order. -/
  attempts : List Attempt
  /-- The CSV text built (and passed to every attempt), if any. -/
  content : Option (List Char)
  /-- Whether the empty-input warning was logged. -/
  warnedNoData : Bool
  outcome : ExportOutcome
deriving DecidableEq, Repr

/-- `triggerStandardLegacyDownload`: succeeds via the anchor click when the
`download` attribute is supported, otherwise alerts that export is
unsupported. -/
def triggerStandardLegacyDownload (env : Env) : ExportOutcome :=
  if env.downloadAttr then .saved .legacy else .unsupported

/-- `attemptSaveWithDialogs`: try the File System Access API picker; on
user cancellation stop with success; on any other picker failure — or when
the picker is absent — fall back to the legacy anchor download. -/
def attemptSaveWithDialogs (filename content : List Char) (env : Env) :
    List Attempt × ExportOutcome :=
  match env.picker with
  | some .save => ([⟨.picker, filename, content⟩], .saved .picker)
  | some .abort => ([⟨.picker, filename, content⟩], .cancelled)
  | some .fail =>
    ([⟨.picker, filename, content⟩, ⟨.legacy, filename, content⟩],
     triggerStandardLegacyDownload env)
  | none => ([⟨.legacy, filename, content⟩], triggerStandardLegacyDownload env)

/-- `exportToCsv`: warn and return on empty input; otherwise build the CSV
text and deliver it, preferring the pywebview bridge.  A bridge promise
that resolves `{success:false}` or rejects falls back to
`attemptSaveWithDialogs` (the `.then`/`.catch` handlers); a synchronous
throw while invoking the bridge is not caught and escapes. -/
def exportToCsv (filename : List Char) (rows : List InvoiceItem) (env : Env) :
    ExportResult :=
  if rows.isEmpty then ⟨[], none, true, .noData⟩
  else
    let content := csvContent rows
    match env.bridge with
    | some .resolveSuccess =>
      ⟨[⟨.bridge, filename, content⟩], some content, false, .saved .bridge⟩
    | some .resolveFailure =>
      ⟨⟨.bridge, filename, content⟩
          :: (attemptSaveWithDialogs filename content env).1,
       some content, false, (attemptSaveWithDialogs filename content env).2⟩
    | some .reject =>
      ⟨⟨.bridge, filename, content⟩
          :: (attemptSaveWithDialogs filename content env).1,
       some content, false, (attemptSaveWithDialogs filename content env).2⟩
    | some .throwSync =>
      ⟨[⟨.bridge, filename, content⟩], some content, false, .thrown⟩
    | none =>
      ⟨(attemptSaveWithDialogs filename content env).1,
       some content, false, (attemptSaveWithDialogs filename content env).2⟩

/-- Concatenation of a list of lines, each line followed by CRLF. -/
def joinCrlfTerminated : List (List Char) → List Char
  | [] => []
  | l :: ls => l ++ crlf ++ joinCrlfTerminated ls

/-! ## Concrete sample data -/

/-- The example record of the spec's testable-properties section. -/
def exampleRecord : InvoiceItem :=
  { id := .str ("r1".toList)
    date := .str ("2024-07-20".toList)
    invoiceNumber := .str ("INV-1".toList)
    partyName := .str ("Ex, Inc.".toList)
    panOrVatNumber := .str ("".toList)
    particulars := .str ("A \"special\" job".toList)
    taxableAmount := .num 100
    vatAmount := .num 13
    totalAmount := .num 113
    sourceFileName := .str ("a.pdf".toList)
    vatCredit := .bool true }

/-- A record whose optional fields are all absent. -/
def nullRecord : InvoiceItem :=
  { id := .null, date := .null, invoiceNumber := .null, partyName := .null
    panOrVatNumber := .null, particulars := .null, taxableAmount := .null
    vatAmount := .null, totalAmount := .null, sourceFileName := .null
    vatCredit := .null }

/-- A sample filename. -/
def sampleFilename : List Char := "invoices.csv".toList

/-- A sample cell content with characters needing quoting. -/
def sampleContent : List Char := "a,b".toList

/-- An environment whose host bridge throws synchronously when invoked,
while both later tiers would work. -/
def throwingBridgeEnv : Env :=
  { bridge := some .throwSync, picker := some .save, downloadAttr := true }

/-- An environment whose host bridge resolves `{success:false}` and which
has no save picker but supports the legacy download. -/
def failingBridgeEnv : Env :=
  { bridge := some .resolveFailure, picker := none, downloadAttr := true }

/-- An environment with no host bridge whose save picker is cancelled by
the user. -/
def abortPickerEnv : Env :=
  { bridge := none, picker := some .abort, downloadAttr := true }

/-! ## Helper lemmas -/

theorem formatCsvCell_eq_quote (v : CellValue) :
    formatCsvCell v = quoteCsv (cellString v) := by
  cases v <;> rfl

theorem rfcQuotedBody_roundtrip (s rest : List Char)
    (h : rest.headD ' ' ≠ '"') :
    rfcQuotedBody (doubleQuotes s ++ '"' :: rest) = some (s, rest) := by
  induction s with
  | nil =>
    cases rest with
    | nil => rfl
    | cons c t =>
      simp only [List.headD_cons] at h
      simp [doubleQuotes, rfcQuotedBody, h]
  | cons a s2 ih =>
    by_cases ha : a = '"'
    · subst ha
      have hd : doubleQuotes ('"' :: s2) = '"' :: '"' :: doubleQuotes s2 := by
        simp [doubleQuotes]
      rw [hd, List.cons_append, List.cons_append]
      simp [rfcQuotedBody, ih]
    · have hne : doubleQuotes s2 ++ '"' :: rest ≠ [] := by
        simp
      have hd : doubleQuotes (a :: s2) = a :: doubleQuotes s2 := by
        simp [doubleQuotes, ha]
      rcases he : doubleQuotes s2 ++ '"' :: rest with _ | ⟨d, t⟩
      · exact absurd he hne
      · rw [hd, List.cons_append, he]
        simp only [rfcQuotedBody, if_neg ha]
        rw [← he, ih]
        rfl

theorem takeWhile_dropWhile_append (p : Char → Bool) (s rest : List Char)
    (hs : ∀ c ∈ s, p c = true)
    (hrest : ∀ c, rest.head? = some c → p c = false) :
    (s ++ rest).takeWhile p = s ∧ (s ++ rest).dropWhile p = rest := by
  induction s with
  | nil =>
    cases rest with
    | nil => simp
    | cons c t =>
      have hc : p c = false := hrest c rfl
      simp [List.takeWhile_cons, List.dropWhile_cons, hc]
  | cons a s2 ih =>
    have ha : p a = true := hs a (by simp)
    have ih2 := ih (fun c hc => hs c (by simp [hc]))
    simp [List.takeWhile_cons, List.dropWhile_cons, ha, ih2.1, ih2.2]

theorem not_special_of_needsQuoting_false {s : List Char}
    (h : needsQuoting s = false) : ∀ c ∈ s, isCsvSpecial c = false := by
  intro c hc
  have := List.any_eq_false.mp h c hc
  simpa using this

theorem startsWithQuote_false_of_sep (rest : List Char)
    (h : ∀ c, rest.head? = some c → c = ',' ∨ c = '\r') :
    startsWithQuote rest = false := by
  cases rest with
  | nil => rfl
  | cons c t =>
    rcases h c rfl with h1 | h1 <;> simp [h1, startsWithQuote]

theorem rfcField_quoteCsv (s rest : List Char)
    (h : ∀ c, rest.head? = some c → c = ',' ∨ c = '\r') :
    rfcField (quoteCsv s ++ rest) = some (s, rest) := by
  by_cases hq : needsQuoting s
  · have hne : rest.headD ' ' ≠ '"' := by
      cases rest with
      | nil => simp
      | cons c t =>
        rcases h c rfl with h1 | h1 <;> simp [h1]
    have hquote : quoteCsv s = '"' :: (doubleQuotes s ++ ['"']) := by
      simp [quoteCsv, hq]
    have hshape : ('"' :: (doubleQuotes s ++ ['"'])) ++ rest
        = '"' :: (doubleQuotes s ++ '"' :: rest) := by simp
    rw [hquote, hshape]
    simp only [rfcField, if_pos rfl]
    exact rfcQuotedBody_roundtrip s rest hne
  · have hq' : needsQuoting s = false := by simpa using hq
    have hall := not_special_of_needsQuoting_false hq'
    have hdrop : ∀ c, rest.head? = some c → (!(isCsvSpecial c)) = false := by
      intro c hc
      rcases h c hc with h1 | h1 <;> simp [h1, isCsvSpecial]
    have hsq : startsWithQuote rest = false := startsWithQuote_false_of_sep rest h
    have hquote : quoteCsv s = s := by simp [quoteCsv, hq']
    rw [hquote]
    cases s with
    | nil =>
      cases rest with
      | nil => rfl
      | cons c t =>
        have hc : c = ',' ∨ c = '\r' := h c rfl
        have hcq : ¬ c = '"' := by rcases hc with h1 | h1 <;> simp [h1]
        have hspec : (!(isCsvSpecial c)) = false := hdrop c rfl
        simp [rfcField, hcq, List.takeWhile_cons, List.dropWhile_cons, hspec, hsq]
    | cons a s2 =>
      have hsa : isCsvSpecial a = false := hall a (by simp)
      have haq : ¬ a = '"' := by
        intro hcontra
        simp [isCsvSpecial, hcontra] at hsa
      have htd := takeWhile_dropWhile_append (fun x => !(isCsvSpecial x)) s2 rest
        (by intro c hc; simp [hall c (by simp [hc])]) hdrop
      rw [List.cons_append]
      simp [rfcField, haq, List.takeWhile_cons, List.dropWhile_cons, hsa,
        htd.1, htd.2, hsq]

theorem rfcField_formatCsvCell (v : CellValue) (rest : List Char)
    (h : ∀ c, rest.head? = some c → c = ',' ∨ c = '\r') :
    rfcField (formatCsvCell v ++ rest) = some (cellString v, rest) := by
  rw [formatCsvCell_eq_quote]
  exact rfcField_quoteCsv (cellString v) rest h

theorem rfcRecord_line (v : CellValue) (vs : List CellValue) (rest : List Char)
    (fuel : Nat) (h : vs.length < fuel) :
    rfcRecord fuel (joinComma ((v :: vs).map formatCsvCell) ++ '\r' :: '\n' :: rest)
      = some ((v :: vs).map cellString, rest) := by
  induction vs generalizing v fuel with
  | nil =>
    cases fuel with
    | zero => omega
    | succ f =>
      have hj : joinComma ([v].map formatCsvCell) = formatCsvCell v := rfl
      rw [hj]
      have hf := rfcField_formatCsvCell v ('\r' :: '\n' :: rest)
        (by intro c hc; right; simpa using hc.symm)
      simp [rfcRecord, hf]
  | cons w ws ih =>
    cases fuel with
    | zero => omega
    | succ f =>
      have hj : joinComma ((v :: w :: ws).map formatCsvCell)
          = formatCsvCell v ++ ',' :: joinComma ((w :: ws).map formatCsvCell) := rfl
      rw [hj]
      have hshape : (formatCsvCell v ++ ',' :: joinComma ((w :: ws).map formatCsvCell))
            ++ '\r' :: '\n' :: rest
          = formatCsvCell v
            ++ ',' :: (joinComma ((w :: ws).map formatCsvCell) ++ '\r' :: '\n' :: rest) := by
        simp
      rw [hshape]
      have hf := rfcField_formatCsvCell v
        (',' :: (joinComma ((w :: ws).map formatCsvCell) ++ '\r' :: '\n' :: rest))
        (by intro c hc; left; simpa using hc.symm)
      have hrec := ih w f (by simpa using Nat.lt_of_succ_lt_succ h)
      simp only [List.map_cons] at hf hrec
      simp [rfcRecord, hf, hrec]

theorem length_le_joinComma (l : List (List Char)) :
    l.length ≤ (joinComma l).length + 1 := by
  induction l with
  | nil => simp
  | cons x xs ih =>
    cases xs with
    | nil => simp [joinComma]
    | cons y zs =>
      have hj : joinComma (x :: y :: zs) = x ++ ',' :: joinComma (y :: zs) := rfl
      rw [hj]
      simp only [List.length_cons, List.length_append] at *
      omega

theorem length_le_joinCrlfTerminated (ls : List (List Char)) :
    ls.length ≤ (joinCrlfTerminated ls).length := by
  induction ls with
  | nil => simp [joinCrlfTerminated]
  | cons l ls ih =>
    simp only [joinCrlfTerminated, List.length_cons, List.length_append, crlf,
      List.length_cons] at *
    omega

theorem rfcDocAux_lines (L : List (List CellValue))
    (hne : ∀ vs ∈ L, vs ≠ []) (fuel : Nat) (h : L.length ≤ fuel) :
    rfcDocAux fuel
        (joinCrlfTerminated (L.map (fun vs => joinComma (vs.map formatCsvCell))))
      = some (L.map (List.map cellString)) := by
  induction L generalizing fuel with
  | nil => simp [joinCrlfTerminated, rfcDocAux]
  | cons vs Ls ih =>
    rcases hvs : vs with _ | ⟨v, vs2⟩
    · exact absurd hvs (hne vs (by simp [hvs]))
    · subst hvs
      cases fuel with
      | zero => simp at h
      | succ f =>
        have hjoin : joinCrlfTerminated
            (((v :: vs2) :: Ls).map (fun vs => joinComma (vs.map formatCsvCell)))
            = joinComma ((v :: vs2).map formatCsvCell) ++ '\r' :: '\n' ::
              joinCrlfTerminated (Ls.map (fun vs => joinComma (vs.map formatCsvCell))) := by
          simp [joinCrlfTerminated, crlf]
        rw [hjoin]
        have hdoc : rfcDocAux f
            (joinCrlfTerminated (Ls.map (fun vs => joinComma (vs.map formatCsvCell))))
            = some (Ls.map (List.map cellString)) :=
          ih (fun x hx => hne x (by simp [hx])) f (by
            simp only [List.length_cons] at h
            omega)
        rcases hcons : joinComma ((v :: vs2).map formatCsvCell) ++ '\r' :: '\n' ::
            joinCrlfTerminated (Ls.map (fun vs => joinComma (vs.map formatCsvCell)))
          with _ | ⟨c, cs⟩
        · exact absurd hcons (by simp)
        · have hlenEq := congrArg List.length hcons
          simp only [List.length_append, List.length_cons] at hlenEq
          have h1 := length_le_joinComma ((v :: vs2).map formatCsvCell)
          simp only [List.length_map, List.length_cons] at h1
          have hlen : vs2.length < cs.length + 1 + 1 := by omega
          have hrec := rfcRecord_line v vs2
            (joinCrlfTerminated (Ls.map (fun vs => joinComma (vs.map formatCsvCell))))
            (cs.length + 1 + 1) hlen
          rw [hcons] at hrec
          simp only [rfcDocAux]
          simp [hrec, hdoc]

theorem foldl_lines (rows : List InvoiceItem) (init : List Char) :
    rows.foldl (fun acc row => acc ++ rowLine row ++ crlf) init
      = init ++ joinCrlfTerminated (rows.map rowLine) := by
  induction rows generalizing init with
  | nil => simp [joinCrlfTerminated]
  | cons r rs ih =>
    simp only [List.foldl_cons, ih, List.map_cons, joinCrlfTerminated]
    simp [List.append_assoc]

theorem csvContent_lines (rows : List InvoiceItem) :
    csvContent rows = joinCrlfTerminated (headerString :: rows.map rowLine) := by
  unfold csvContent
  rw [foldl_lines]
  simp [joinCrlfTerminated]

theorem attemptSaveWithDialogs_spec (filename content : List Char) (env : Env) :
    (attemptSaveWithDialogs filename content env).1 ≠ []
    ∧ (∀ a ∈ (attemptSaveWithDialogs filename content env).1,
        a.tier ≠ Tier.bridge ∧ a.filename = filename ∧ a.content = content)
    ∧ (attemptSaveWithDialogs filename content env).2 ≠ ExportOutcome.thrown := by
  rcases env with ⟨b, p, d⟩
  rcases p with _ | pb
  · cases d <;>
      simp [attemptSaveWithDialogs, triggerStandardLegacyDownload]
  · cases pb <;> cases d <;>
      simp [attemptSaveWithDialogs, triggerStandardLegacyDownload]

theorem csvContent_structured (rows : List InvoiceItem) :
    csvContent rows
      = joinCrlfTerminated
          (((orderedKeys.map (fun k => CellValue.str (keyName k)))
              :: rows.map (fun r => orderedKeys.map (valueToFormat r))).map
            (fun vs => joinComma (vs.map formatCsvCell))) := by
  rw [csvContent_lines]
  simp only [List.map_cons, List.map_map]
  have hfun : rowLine
      = ((fun vs => joinComma (vs.map formatCsvCell))
          ∘ (fun r : InvoiceItem => orderedKeys.map (valueToFormat r))) := by
    funext r
    rfl
  rw [← hfun]
  rfl

/-! ## The claims -/

/-- C1: after the missing-value, boolean and natural-string-representation
steps produce a string, the emitted cell is that string quoted with internal
double quotes doubled exactly when it contains a comma, double quote, CR or
LF, and the string itself otherwise; and an RFC-4180 reader parsing the
emitted cell recovers the original string exactly, including embedded
quotes and newlines (round-trip). -/
theorem claim_C1_cell_quoting_roundtrip (value : CellValue) (s : List Char) :
    formatCsvCell value = quoteCsv (cellString value)
    ∧ (if needsQuoting s then quoteCsv s = '"' :: (doubleQuotes s ++ ['"'])
       else quoteCsv s = s)
    ∧ rfcCell (quoteCsv s) = some s := by
  refine ⟨formatCsvCell_eq_quote value, ?_, ?_⟩
  · by_cases hq : needsQuoting s <;> simp [quoteCsv, hq]
  · have hf := rfcField_quoteCsv s [] (by intro c hc; simp at hc)
    rw [List.append_nil] at hf
    simp [rfcCell, hf]

/-- C2: for a non-empty record sequence of length `n`, the CSV text is the
concatenation of exactly `n + 1` lines — the header first, then one data
line per record in input order — each line terminated by CRLF, including
the last. -/
theorem claim_C2_line_structure (r0 : InvoiceItem) (rest : List InvoiceItem) :
    csvContent (r0 :: rest)
      = joinCrlfTerminated (headerString :: (r0 :: rest).map rowLine)
    ∧ (headerString :: (r0 :: rest).map rowLine).length
        = (r0 :: rest).length + 1 := by
  exact ⟨csvContent_lines (r0 :: rest), by simp⟩

/-- C3: the first line of the CSV is the fixed header (the source's column
names — the spec calls `panOrVatNumber`, `vatAmount` and `vatCredit` the
tax-id, tax-amount and tax-credit-flag columns — comma-joined in fixed
order with no trailing comma), and every data line lists its record's
values in that same fixed column order, which is independent of any
field ordering of the record itself (records are fixed-shape structures). -/
theorem claim_C3_header_and_column_order (r0 : InvoiceItem)
    (rest : List InvoiceItem) :
    headerString = ("date,invoiceNumber,partyName,panOrVatNumber,particulars,"
        ++ "taxableAmount,vatAmount,totalAmount,sourceFileName,vatCredit").toList
    ∧ csvContent (r0 :: rest)
        = headerString ++ crlf ++ joinCrlfTerminated ((r0 :: rest).map rowLine)
    ∧ ∀ r : InvoiceItem, rowLine r = joinComma
        [formatCsvCell (valueToFormat r .date),
         formatCsvCell (valueToFormat r .invoiceNumber),
         formatCsvCell (valueToFormat r .partyName),
         formatCsvCell (valueToFormat r .panOrVatNumber),
         formatCsvCell (valueToFormat r .particulars),
         formatCsvCell (valueToFormat r .taxableAmount),
         formatCsvCell (valueToFormat r .vatAmount),
         formatCsvCell (valueToFormat r .totalAmount),
         formatCsvCell (valueToFormat r .sourceFileName),
         formatCsvCell (valueToFormat r .vatCredit)] := by
  refine ⟨by decide, ?_, fun r => rfl⟩
  rw [csvContent_lines]
  simp [joinCrlfTerminated]

/-- C4: the tax-credit-flag cell is the text `TRUE` when the flag is the
boolean `true`, and `FALSE` when it is `false`, absent, or not a boolean;
it is never empty and never the lowercase `true`/`false`. -/
theorem claim_C4_vatCredit_cell (r : InvoiceItem) :
    formatCsvCell (valueToFormat r CsvKey.vatCredit)
        = (match r.vatCredit with
           | CellValue.bool true => "TRUE".toList
           | _ => "FALSE".toList)
    ∧ formatCsvCell (valueToFormat r CsvKey.vatCredit) ≠ []
    ∧ formatCsvCell (valueToFormat r CsvKey.vatCredit) ≠ "true".toList
    ∧ formatCsvCell (valueToFormat r CsvKey.vatCredit) ≠ "false".toList := by
  rcases hb : r.vatCredit with _ | b | s | n
  · have hv : valueToFormat r CsvKey.vatCredit = CellValue.bool false := by
      simp [valueToFormat, hb]
    rw [hv]
    exact ⟨by decide, by decide, by decide, by decide⟩
  · cases b
    · have hv : valueToFormat r CsvKey.vatCredit = CellValue.bool false := by
        simp [valueToFormat, hb]
      rw [hv]
      exact ⟨by decide, by decide, by decide, by decide⟩
    · have hv : valueToFormat r CsvKey.vatCredit = CellValue.bool true := by
        simp [valueToFormat, hb]
      rw [hv]
      exact ⟨by decide, by decide, by decide, by decide⟩
  · have hv : valueToFormat r CsvKey.vatCredit = CellValue.bool false := by
      simp [valueToFormat, hb]
    rw [hv]
    exact ⟨(by decide : formatCsvCell (CellValue.bool false) = "FALSE".toList),
      by decide, by decide, by decide⟩
  · have hv : valueToFormat r CsvKey.vatCredit = CellValue.bool false := by
      simp [valueToFormat, hb]
    rw [hv]
    exact ⟨(by decide : formatCsvCell (CellValue.bool false) = "FALSE".toList),
      by decide, by decide, by decide⟩

/-- C5: when the source-filename field or the tax-id field
(`panOrVatNumber`) is absent (`null`/`undefined`), the corresponding cell
is the empty string — never the text `undefined` or `null`. -/
theorem claim_C5_absent_optionals (r : InvoiceItem) :
    (r.sourceFileName = CellValue.null →
      formatCsvCell (valueToFormat r CsvKey.sourceFileName) = []
      ∧ formatCsvCell (valueToFormat r CsvKey.sourceFileName)
          ≠ "undefined".toList
      ∧ formatCsvCell (valueToFormat r CsvKey.sourceFileName) ≠ "null".toList)
    ∧ (r.panOrVatNumber = CellValue.null →
      formatCsvCell (valueToFormat r CsvKey.panOrVatNumber) = []
      ∧ formatCsvCell (valueToFormat r CsvKey.panOrVatNumber)
          ≠ "undefined".toList
      ∧ formatCsvCell (valueToFormat r CsvKey.panOrVatNumber)
          ≠ "null".toList) := by
  constructor
  · intro h
    have hcell : formatCsvCell (valueToFormat r CsvKey.sourceFileName) = [] := by
      simp [valueToFormat, h, formatCsvCell, quoteCsv, needsQuoting, cellString]
    rw [hcell]
    exact ⟨rfl, by decide, by decide⟩
  · intro h
    have hcell : formatCsvCell (valueToFormat r CsvKey.panOrVatNumber) = [] := by
      simp [valueToFormat, getField, h, formatCsvCell]
    rw [hcell]
    exact ⟨rfl, by decide, by decide⟩

/-- C5 witness: at a record with both optional fields absent, both cells
evaluate to the empty string. -/
theorem claim_C5_witness :
    formatCsvCell (valueToFormat nullRecord CsvKey.sourceFileName) = []
    ∧ formatCsvCell (valueToFormat nullRecord CsvKey.panOrVatNumber) = [] :=
  ⟨((claim_C5_absent_optionals nullRecord).1 rfl).1,
   ((claim_C5_absent_optionals nullRecord).2 rfl).1⟩

set_option maxRecDepth 20000 in
/-- C6: on the spec's single-record example, the CSV text is the header
line followed by exactly the expected second line, both CRLF-terminated. -/
theorem claim_C6_example_second_line :
    csvContent [exampleRecord]
      = headerString ++ crlf
        ++ ("2024-07-20,INV-1,\"Ex, Inc.\",,\"A \"\"special\"\" job\","
            ++ "100,13,113,a.pdf,TRUE").toList
        ++ crlf := by
  decide

/-- C7: exporting an empty record sequence builds no CSV content, attempts
no delivery tier, throws nothing, and returns after the no-op warning
(`console.warn`); the model carries no other state, matching the claim
that all state is left unchanged. -/
theorem claim_C7_empty_input (filename : List Char) (env : Env) :
    exportToCsv filename [] env
      = { attempts := [], content := none, warnedNoData := true,
          outcome := ExportOutcome.noData } := rfl

/-- C8 counterexample: with a host bridge that throws synchronously while
being invoked (and a working picker behind it), `exportToCsv` attempts no
further tier and the error escapes unhandled — the claim's conclusion
fails for the throw-while-invoking case it includes. -/
theorem claim_C8_counterexample :
    (exportToCsv sampleFilename [exampleRecord] throwingBridgeEnv).outcome
        = ExportOutcome.thrown
    ∧ ¬ ∃ a ∈ (exportToCsv sampleFilename [exampleRecord]
          throwingBridgeEnv).attempts, a.tier ≠ Tier.bridge := by
  constructor
  · rfl
  · decide

/-- C8 (amended): when the host-bridge save capability is present and its
promise either reports failure (`{success:false}`) or rejects, `exportToCsv`
falls through to the next delivery tier (save-picker or legacy download)
with the same filename and CSV content, and no unhandled error surfaces.
(A synchronous throw while invoking the bridge, which the original claim
also covered, is not caught — see the counterexample.) -/
theorem claim_C8_bridge_fallback (filename : List Char) (r0 : InvoiceItem)
    (rest : List InvoiceItem) (env : Env)
    (h : env.bridge = some BridgeBehavior.resolveFailure
        ∨ env.bridge = some BridgeBehavior.reject) :
    (exportToCsv filename (r0 :: rest) env).attempts
      = { tier := Tier.bridge, filename := filename,
          content := csvContent (r0 :: rest) }
        :: (attemptSaveWithDialogs filename (csvContent (r0 :: rest)) env).1
    ∧ (attemptSaveWithDialogs filename (csvContent (r0 :: rest)) env).1 ≠ []
    ∧ (∀ a ∈ (attemptSaveWithDialogs filename (csvContent (r0 :: rest)) env).1,
        a.tier ≠ Tier.bridge ∧ a.filename = filename
        ∧ a.content = csvContent (r0 :: rest))
    ∧ (exportToCsv filename (r0 :: rest) env).outcome
        ≠ ExportOutcome.thrown := by
  have spec := attemptSaveWithDialogs_spec filename (csvContent (r0 :: rest)) env
  refine ⟨?_, spec.1, spec.2.1, ?_⟩
  · rcases h with h | h <;> simp [exportToCsv, h]
  · rcases h with h | h <;> simp [exportToCsv, h] <;> exact spec.2.2

/-- C8 witness: a concrete environment whose bridge reports
`{success:false}`, with only the legacy tier behind it. -/
theorem claim_C8_witness :
    (exportToCsv sampleFilename [exampleRecord] failingBridgeEnv).attempts
      = { tier := Tier.bridge, filename := sampleFilename,
          content := csvContent [exampleRecord] }
        :: (attemptSaveWithDialogs sampleFilename (csvContent [exampleRecord])
              failingBridgeEnv).1
    ∧ (attemptSaveWithDialogs sampleFilename (csvContent [exampleRecord])
          failingBridgeEnv).1 ≠ []
    ∧ (∀ a ∈ (attemptSaveWithDialogs sampleFilename (csvContent [exampleRecord])
          failingBridgeEnv).1,
        a.tier ≠ Tier.bridge ∧ a.filename = sampleFilename
        ∧ a.content = csvContent [exampleRecord])
    ∧ (exportToCsv sampleFilename [exampleRecord] failingBridgeEnv).outcome
        ≠ ExportOutcome.thrown :=
  claim_C8_bridge_fallback sampleFilename exampleRecord [] failingBridgeEnv
    (Or.inl rfl)

/-- C9: when the save dialog is attempted and the user cancels it
(`AbortError`), the export ends as a successful terminal outcome: the only
attempt is the picker itself, no legacy fallback happens, and the
cancellation is not propagated as an error; likewise a bridge-less
`exportToCsv` call ends with the `cancelled` outcome and never reaches the
legacy tier. -/
theorem claim_C9_cancel_terminal (filename content : List Char) (env : Env)
    (h : env.picker = some PickerBehavior.abort) :
    attemptSaveWithDialogs filename content env
      = ([{ tier := Tier.picker, filename := filename, content := content }],
         ExportOutcome.cancelled)
    ∧ (∀ a ∈ (attemptSaveWithDialogs filename content env).1,
        a.tier ≠ Tier.legacy)
    ∧ (∀ (r0 : InvoiceItem) (rest : List InvoiceItem), env.bridge = none →
        (exportToCsv filename (r0 :: rest) env).outcome
            = ExportOutcome.cancelled
        ∧ ∀ a ∈ (exportToCsv filename (r0 :: rest) env).attempts,
            a.tier ≠ Tier.legacy) := by
  have h1 : attemptSaveWithDialogs filename content env
      = ([{ tier := Tier.picker, filename := filename, content := content }],
         ExportOutcome.cancelled) := by
    rcases env with ⟨b, p, d⟩
    simp only at h
    subst h
    rfl
  refine ⟨h1, ?_, ?_⟩
  · rw [h1]
    simp
  · intro r0 rest hb
    rcases env with ⟨b, p, d⟩
    simp only at h hb
    subst h
    subst hb
    constructor
    · simp [exportToCsv, attemptSaveWithDialogs]
    · simp [exportToCsv, attemptSaveWithDialogs]

/-- C9 witness: a concrete bridge-less environment with a cancelled picker
dialog. -/
theorem claim_C9_witness :
    attemptSaveWithDialogs sampleFilename sampleContent abortPickerEnv
      = ([{ tier := Tier.picker, filename := sampleFilename,
            content := sampleContent }],
         ExportOutcome.cancelled)
    ∧ (exportToCsv sampleFilename [exampleRecord] abortPickerEnv).outcome
        = ExportOutcome.cancelled :=
  ⟨(claim_C9_cancel_terminal sampleFilename sampleContent abortPickerEnv rfl).1,
   (((claim_C9_cancel_terminal sampleFilename sampleContent
        abortPickerEnv rfl).2.2 exampleRecord [] rfl)).1⟩

/-- C10: the whole CSV text produced for any record sequence parses under
RFC-4180 rules into exactly one record per line — the header fields first,
then each record's cell strings — and every parsed record, header
included, has exactly 10 fields: embedded commas and newlines never create
extra fields or extra lines. -/
theorem claim_C10_rfc4180_shape (rows : List InvoiceItem) :
    rfcDoc (csvContent rows)
      = some ((orderedKeys.map keyName)
          :: rows.map (fun r => orderedKeys.map
              (fun k => cellString (valueToFormat r k))))
    ∧ ∀ fs ∈ (orderedKeys.map keyName)
          :: rows.map (fun r => orderedKeys.map
              (fun k => cellString (valueToFormat r k))),
        fs.length = 10 := by
  constructor
  · have hL := rfcDocAux_lines
      ((orderedKeys.map (fun k => CellValue.str (keyName k)))
        :: rows.map (fun r => orderedKeys.map (valueToFormat r)))
      (by
        intro vs hvs
        rcases List.mem_cons.mp hvs with hvs1 | hvs1
        · subst hvs1; decide
        · simp only [List.mem_map] at hvs1
          obtain ⟨r, _, hr⟩ := hvs1
          subst hr
          simp [orderedKeys])
      (csvContent rows).length
      (by
        have h1 := length_le_joinCrlfTerminated
          ((((orderedKeys.map (fun k => CellValue.str (keyName k)))
              :: rows.map (fun r => orderedKeys.map (valueToFormat r))).map
            (fun vs => joinComma (vs.map formatCsvCell))))
        rw [← csvContent_structured] at h1
        simpa using h1)
    rw [csvContent_structured] at hL ⊢
    unfold rfcDoc
    rw [hL]
    have hfun2 : (List.map cellString
          ∘ fun r : InvoiceItem => orderedKeys.map (valueToFormat r))
        = fun r => orderedKeys.map (fun k => cellString (valueToFormat r k)) := by
      funext r
      rfl
    simp only [List.map_cons, List.map_map, hfun2]
    rfl
  · intro fs hfs
    rcases List.mem_cons.mp hfs with hfs1 | hfs1
    · subst hfs1; decide
    · simp only [List.mem_map] at hfs1
      obtain ⟨r, _, hr⟩ := hfs1
      subst hr
      simp [orderedKeys]

end CsvExporter
